import Mathlib

/-!
Verification of the photo-album backend (index-photos and search-photos
Lambda functions) against its natural-language specification.

The two Python sources are shallowly embedded below.  External services
(Rekognition, S3 metadata, Lex, the OpenSearch endpoint, the clock) are
modelled as explicit oracle values passed to the embedded functions; every
internal computation (lowercasing, splitting, stripping, percent
encoding/decoding, dedup, sort, response construction) is embedded as an
executable Lean function.  String processing is modelled on the ASCII
range, which covers all label and key data this system handles.
-/

namespace PhotoAlbum

/-! ## Character and string helpers (Python string primitives) -/

/-- Python whitespace characters, ASCII range: space, tab, newline,
carriage return, vertical tab, form feed (code points 32, 9, 10, 13, 11, 12).
This is the class used by str.split() and str.strip(). -/
def isPySpace (c : Char) : Bool :=
  decide (c.toNat = 32) || decide (c.toNat = 9) || decide (c.toNat = 10) ||
    decide (c.toNat = 13) || decide (c.toNat = 11) || decide (c.toNat = 12)

/-- Python str.lower(), modelled on the ASCII range via Char.toLower
(code points 65-90 map to 97-122; everything else is unchanged). -/
def pyLower (s : String) : String :=
  String.mk (s.toList.map Char.toLower)

/-- Python str.strip() on a character list: drop leading and trailing
whitespace. -/
def stripChars (l : List Char) : List Char :=
  ((l.dropWhile isPySpace).reverse.dropWhile isPySpace).reverse

/-- Python str.strip(). -/
def pyStrip (s : String) : String :=
  String.mk (stripChars s.toList)

/-- Worker for pySplitWs: accumulates the current token (reversed). -/
def splitWsAux : List Char → List Char → List String
  | [], acc => if acc.isEmpty then [] else [String.mk acc.reverse]
  | c :: cs, acc =>
    if isPySpace c then
      if acc.isEmpty then splitWsAux cs []
      else String.mk acc.reverse :: splitWsAux cs []
    else splitWsAux cs (c :: acc)

/-- Python str.split() with no separator: split on whitespace runs,
producing no empty tokens. -/
def pySplitWs (s : String) : List String :=
  splitWsAux s.toList []

/-- Worker for pySplitComma: accumulates the current piece (reversed). -/
def splitCommaAux : List Char → List Char → List String
  | [], acc => [String.mk acc.reverse]
  | c :: cs, acc =>
    if c = ',' then String.mk acc.reverse :: splitCommaAux cs []
    else splitCommaAux cs (c :: acc)

/-- Python str.split(",") : split on every comma, keeping empty pieces
(in particular, splitting the empty string yields one empty piece). -/
def pySplitComma (s : String) : List String :=
  splitCommaAux s.toList []

/-- Worker for dedupFirst, carrying the set of strings already emitted. -/
def dedupFirstAux (seen : List String) : List String → List String
  | [] => []
  | x :: xs =>
    if x ∈ seen then dedupFirstAux seen xs
    else x :: dedupFirstAux (x :: seen) xs

/-- Python list(dict.fromkeys(l)) and, combined with a sort, set(l):
remove duplicates keeping the first occurrence of each element. -/
def dedupFirst (l : List String) : List String :=
  dedupFirstAux [] l

/-- Lexicographic comparison of character lists by code point, the order
Python uses to compare strings. -/
def charsLe : List Char → List Char → Bool
  | [], _ => true
  | _ :: _, [] => false
  | a :: as, b :: bs =>
    if a < b then true else if b < a then false else charsLe as bs

/-- Python string comparison (first argument less than or equal to second). -/
def strLe (a b : String) : Bool :=
  charsLe a.toList b.toList

/-- Insert a string into an already sorted list. -/
def insertSorted (x : String) : List String → List String
  | [] => [x]
  | y :: ys => if strLe x y then x :: y :: ys else y :: insertSorted x ys

/-- Sort a list of strings in Python string order (insertion sort; on the
duplicate-free lists it is applied to here, it agrees with Python sorted). -/
def sortStrings (l : List String) : List String :=
  l.foldr insertSorted []

/-- Python sorted(set(l)): the distinct elements of l in increasing
string order. -/
def pySortedSet (l : List String) : List String :=
  sortStrings (dedupFirst l)

/-- Value of an ASCII hex digit, or none for a non-hex character;
used by percent decoding (urllib.parse.unquote_plus). -/
def hexVal (c : Char) : Option Nat :=
  if 48 ≤ c.toNat ∧ c.toNat ≤ 57 then some (c.toNat - 48)
  else if 97 ≤ c.toNat ∧ c.toNat ≤ 102 then some (c.toNat - 97 + 10)
  else if 65 ≤ c.toNat ∧ c.toNat ≤ 70 then some (c.toNat - 65 + 10)
  else none

/-- Worker for unquote_plus: plus becomes space, a percent followed by two
hex digits becomes the denoted code point (ASCII range modelling of the
byte-level decode), and an invalid percent sequence is kept verbatim. -/
def unquoteCharsF : Nat → List Char → List Char
  | _, [] => []
  | 0, l => l
  | fuel + 1, '+' :: rest => ' ' :: unquoteCharsF fuel rest
  | fuel + 1, '%' :: h1 :: h2 :: rest =>
    match hexVal h1, hexVal h2 with
    | some a, some b => Char.ofNat (16 * a + b) :: unquoteCharsF fuel rest
    | _, _ => '%' :: unquoteCharsF fuel (h1 :: h2 :: rest)
  | fuel + 1, c :: rest => c :: unquoteCharsF fuel rest

/-- Percent decoding of a character list. Every step consumes at least
one character, so a fuel equal to the length of the list always
suffices; the fuel only makes the recursion structural. -/
def unquoteChars (l : List Char) : List Char :=
  unquoteCharsF l.length l

/-- urllib.parse.unquote_plus, as applied to S3 event object keys. -/
def unquote_plus (s : String) : String :=
  String.mk (unquoteChars s.toList)

/-- Characters urllib.parse.quote never escapes: ASCII letters, digits,
and underscore, dot, hyphen, tilde. -/
def isUnreservedChar (c : Char) : Bool :=
  (decide (65 ≤ c.toNat) && decide (c.toNat ≤ 90)) ||
  (decide (97 ≤ c.toNat) && decide (c.toNat ≤ 122)) ||
  (decide (48 ≤ c.toNat) && decide (c.toNat ≤ 57)) ||
  decide (c = '_') || decide (c = '.') || decide (c = '-') || decide (c = '~')

/-- Uppercase hex digit for a value below 16, as used by percent encoding. -/
def hexDigitUpper (n : Nat) : Char :=
  if n < 10 then Char.ofNat (48 + n) else Char.ofNat (65 + n - 10)

/-- Percent-encode one character (ASCII range). -/
def quoteChar (safe : List Char) (c : Char) : List Char :=
  if isUnreservedChar c || decide (c ∈ safe) then [c]
  else ['%', hexDigitUpper (c.toNat / 16), hexDigitUpper (c.toNat % 16)]

/-- urllib.parse.quote(s, safe="") as used for the document id: every
character outside the unreserved set is escaped, including the slash. -/
def pyQuote (s : String) : String :=
  String.mk ((s.toList.map (quoteChar [])).flatten)

/-- urllib.parse.quote(s) with the default safe="/" as used for result
URLs: like pyQuote but the slash is kept verbatim. -/
def pyQuoteKeepSlash (s : String) : String :=
  String.mk ((s.toList.map (quoteChar ['/'])).flatten)

/-! ## Ingestion pipeline (src/backend/index-photos/index.py) -/

/-- Outcome of the rekognition.detect_labels call for one object: either
the list of returned label Names (in response order), or any exception. -/
inductive DetectorResult where
  | ok (names : List String)
  | err
deriving DecidableEq, Repr

/-- Outcome of the s3.head_object call for one object: either the optional
customlabels metadata value (none when the key is absent), or any
exception. -/
inductive MetadataResult where
  | ok (customlabels : Option String)
  | err
deriving DecidableEq, Repr

/-- get_labels_from_rekognition: on success, the Name of each returned
label, lowercased; on any detector exception, the empty list. -/
def get_labels_from_rekognition : DetectorResult → List String
  | .ok names => names.map pyLower
  | .err => []

/-- get_custom_labels: on success, read the customlabels metadata value;
a missing or empty value gives no labels, otherwise the value is split on
commas and each piece is stripped and lowercased, dropping pieces that
strip to nothing; on any metadata exception, the empty list. -/
def get_custom_labels : MetadataResult → List String
  | .ok none => []
  | .ok (some raw) =>
    if raw = "" then []
    else ((pySplitComma raw).filter (fun l => pyStrip l ≠ "")).map
      (fun l => pyLower (pyStrip l))
  | .err => []

/-- One S3 event record: bucket name and the raw (still percent-encoded)
object key. -/
structure S3Record where
  bucket : String
  rawKey : String
deriving DecidableEq, Repr

/-- The external effects observed while the handler processes one record:
the detector outcome, the metadata outcome, whether the signed PUT to the
index succeeded (false models any exception from sign_and_send_es), and
the value of datetime.datetime.utcnow().isoformat(). -/
structure RecordOracle where
  detector : DetectorResult
  metadata : MetadataResult
  esPutOk : Bool
  ts : String
deriving DecidableEq, Repr

/-- The JSON document the handler builds for one record. -/
structure PhotoDoc where
  objectKey : String
  bucket : String
  createdTimestamp : String
  labels : List String
deriving DecidableEq, Repr

/-- The document built for one record: the key is percent-decoded with
plus-as-space, both label sources are fused with sorted(set(...)), and the
timestamp is the current UTC time. -/
def buildDoc (rec : S3Record) (o : RecordOracle) : PhotoDoc :=
  { objectKey := unquote_plus rec.rawKey
    bucket := rec.bucket
    createdTimestamp := o.ts
    labels := pySortedSet (get_labels_from_rekognition o.detector ++
      get_custom_labels o.metadata) }

/-- The document path used for the PUT: the index name and the strictly
percent-encoded decoded object key. -/
def docPath (esIndex : String) (rec : S3Record) : String :=
  "/" ++ esIndex ++ "/_doc/" ++ pyQuote (unquote_plus rec.rawKey)

/-- One successfully executed index write. -/
structure IndexPut where
  path : String
  doc : PhotoDoc
deriving DecidableEq, Repr

/-- Processing of one record inside the handler loop: the document is
built and PUT to its path; a failing PUT is caught and logged, so the
record then produces no index write (none). -/
def processRecord (esIndex : String) (rec : S3Record) (o : RecordOracle) :
    Option IndexPut :=
  if o.esPutOk then some { path := docPath esIndex rec, doc := buildDoc rec o }
  else none

/-- handler: each record of the event is processed independently and in
order; the observable effect is the per-record index write (or none when
that record's PUT failed). The Python return value is a constant 200
response and is not modelled. -/
def handler (esIndex : String) (records : List (S3Record × RecordOracle)) :
    List (Option IndexPut) :=
  records.map (fun ro => processRecord esIndex ro.1 ro.2)

/-- The remote index modelled as an association list from document path to
document. A PUT to an existing path overwrites in place; a PUT to a new
path appends. -/
def esUpsert (idx : List (String × PhotoDoc)) (p : IndexPut) :
    List (String × PhotoDoc) :=
  if idx.any (fun e => e.1 = p.path) then
    idx.map (fun e => if e.1 = p.path then (p.path, p.doc) else e)
  else idx ++ [(p.path, p.doc)]

/-- Effect of ingesting one record on the index state: the upsert when the
PUT succeeds, the unchanged index when it fails. -/
def applyRecord (esIndex : String) (idx : List (String × PhotoDoc))
    (rec : S3Record) (o : RecordOracle) : List (String × PhotoDoc) :=
  match processRecord esIndex rec o with
  | some p => esUpsert idx p
  | none => idx

/-! ## Query pipeline (src/backend/search-photos/lambda_function.py) -/

/-- One slot value as seen by the handler: the slot entry may be null,
may be a dict without a value key, or may carry an interpretedValue
string. -/
inductive SlotVal where
  | nullSlot
  | noValue
  | withValue (interpretedValue : String)
deriving DecidableEq, Repr

/-- One Lex interpretation: its intent's slots, in dict iteration order.
Slot names are iterated but never read, so only the values are kept. -/
structure Interp where
  slots : List SlotVal
deriving DecidableEq, Repr

/-- Outcome of the lex.recognize_text call: the interpretations list on
success, or any exception. -/
inductive LexResult where
  | ok (interpretations : List Interp)
  | err
deriving DecidableEq, Repr

/-- The slot values collected by the loop over interpretations: for each
slot that is non-null and has a value, its interpretedValue lowercased,
in encounter order. -/
def usableSlotValues (interps : List Interp) : List String :=
  (interps.map (fun i => i.slots.filterMap (fun s =>
    match s with
    | .withValue v => some (pyLower v)
    | _ => none))).flatten

/-- The stop-word set of the deterministic fallback tokenizer. -/
def stopWords : List String :=
  ["show", "me", "photos", "with", "and", "in"]

/-- The deterministic fallback tokenizer applied to the lowercased query:
split on whitespace and drop stop words, keeping token order. -/
def tokenizeFallback (query_lc : String) : List String :=
  (pySplitWs query_lc).filter (fun t => !decide (t ∈ stopWords))

/-- extract_labels_from_lex: on Lex success the usable slot values are
collected; if there are none, the fallback tokenizer output replaces
them; the result is then deduplicated keeping first occurrences
(list(dict.fromkeys(labels))). If the Lex call itself raises, the
fallback tokenizer output is returned directly, without the dedup step. -/
def extract_labels_from_lex (query : String) (lex : LexResult) :
    List String :=
  let query_lc := pyLower query
  match lex with
  | .ok interps =>
    let labels := usableSlotValues interps
    let labels := if labels.isEmpty then tokenizeFallback query_lc else labels
    dedupFirst labels
  | .err => tokenizeFallback query_lc

/-- The incoming search event: the optional q field directly on the event,
and the optional queryStringParameters dict (none when absent or null;
some with its entries otherwise). -/
structure SearchEvent where
  q : Option String
  queryStringParameters : Option (List (String × String))
deriving DecidableEq, Repr

/-- Python dict .get(k): the value at the first matching key, if any. -/
def lookupDict (ps : List (String × String)) (k : String) : Option String :=
  match ps.find? (fun p => p.1 = k) with
  | some p => some p.2
  | none => none

/-- The query-text lookup at the top of lambda_handler: the q field on the
event wins; otherwise, when queryStringParameters is present and truthy
(a non-empty dict), its q entry is used; otherwise there is no query. -/
def getQ (e : SearchEvent) : Option String :=
  match e.q with
  | some v => some v
  | none =>
    match e.queryStringParameters with
    | some ps => if ps.isEmpty then none else lookupDict ps "q"
    | none => none

/-- One search result as placed in the response body. -/
structure SearchResult where
  objectKey : String
  bucket : String
  labels : List String
  url : String
deriving DecidableEq, Repr

/-- The JSON body of a handler response, kept structured: either the
fixed error object or a results object. Serialization by json.dumps is
outside the embedding. -/
inductive RespBody where
  | errorObj (msg : String)
  | results (rs : List SearchResult)
deriving DecidableEq, Repr

/-- The observable outcome of one lambda_handler invocation: the HTTP
status, the response body, whether the permissive CORS header is set, and
whether the Lex and index services were called. -/
structure HandlerResult where
  statusCode : Nat
  body : RespBody
  cors : Bool
  calledLex : Bool
  calledES : Bool
deriving DecidableEq, Repr

/-- The _source fields of one search hit that the handler reads. -/
structure Hit where
  objectKey : String
  bucket : String
  labels : List String
deriving DecidableEq, Repr

/-- Outcome of the signed search call plus the parse of its response, as
seen inside the try block: err models any exception from
sign_and_send_es itself (signing failure, transport failure, non-2xx
status, or a body that is not JSON); okNoHits models a parsed JSON
response in which hits.hits is absent, which the .get defaults turn into
an empty hit list; ok carries the hit list, where a none entry is a hit
whose _source lacks a required field (reading it raises KeyError). -/
inductive ESOutcome where
  | err
  | okNoHits
  | ok (hits : List (Option Hit))
deriving DecidableEq, Repr

/-- The result dict built from one well-formed hit, including the derived
public URL. -/
def mkResult (h : Hit) : SearchResult :=
  { objectKey := h.objectKey
    bucket := h.bucket
    labels := h.labels
    url := "https://" ++ h.bucket ++ ".s3.amazonaws.com/" ++
      pyQuoteKeepSlash h.objectKey }

/-- The loop over hits: each well-formed hit becomes a result; a
malformed hit raises (KeyError), aborting the loop with a failure. -/
def buildResults : List (Option Hit) → Option (List SearchResult)
  | [] => some []
  | none :: _ => none
  | some h :: rest => (buildResults rest).map (fun rs => mkResult h :: rs)

/-- The fixed 400 response for a missing query. -/
def missingQResponse : HandlerResult :=
  { statusCode := 400
    body := .errorObj "Missing query parameter q"
    cors := true
    calledLex := false
    calledES := false }

/-- lambda_handler: resolve the query text (400 when absent or empty),
extract labels via Lex with the tokenizer fallback (200 with empty
results when no labels remain, without calling the index), then run the
terms query against the index and map its hits, any exception inside the
search try block becoming a 500 with empty results. Every response sets
the permissive CORS header. -/
def lambda_handler (e : SearchEvent) (lex : LexResult) (es : ESOutcome) :
    HandlerResult :=
  match getQ e with
  | none => missingQResponse
  | some q =>
    if q = "" then missingQResponse
    else
      let labels := extract_labels_from_lex q lex
      if labels.isEmpty then
        { statusCode := 200, body := .results [], cors := true
          calledLex := true, calledES := false }
      else
        match es with
        | .err =>
          { statusCode := 500, body := .results [], cors := true
            calledLex := true, calledES := true }
        | .okNoHits =>
          { statusCode := 200, body := .results [], cors := true
            calledLex := true, calledES := true }
        | .ok hits =>
          match buildResults hits with
          | some rs =>
            { statusCode := 200, body := .results rs, cors := true
              calledLex := true, calledES := true }
          | none =>
            { statusCode := 500, body := .results [], cors := true
              calledLex := true, calledES := true }

/-- The failure modes of the index search call that the error-handling
claim ranges over: an exception from the signed call itself, or a
response whose hit list contains a malformed hit. -/
def esCallFails : ESOutcome → Prop
  | .err => True
  | .okNoHits => False
  | .ok hits => none ∈ hits

/-! ## Signed index client (sign_and_send_es in both sources) -/

/-- A JSON value, for modelling what json.loads returns. -/
inductive Json where
  | null
  | bool (b : Bool)
  | num (n : Int)
  | str (s : String)
  | arr (elems : List Json)
  | obj (fields : List (String × Json))

/-- An HTTP response as urlopen delivers it: status and decoded body
text. -/
structure HttpResp where
  status : Nat
  bodyText : String

/-- Outcome of urllib.request.urlopen: it raises on transport failure and
on any non-2xx status, and otherwise yields the response. -/
inductive UrlopenResult where
  | failure
  | success (resp : HttpResp)

/-- sign_and_send_es of the search-photos function: on urlopen success
the body is parsed by json.loads (an external library call, passed in as
json_loads, which raises on invalid JSON) and the parsed value is
returned; a urlopen failure propagates. The Option layer is the Python
return value: some for a returned JSON value. -/
def sign_and_send_es_search (json_loads : String → Except Unit Json)
    (r : UrlopenResult) : Except Unit (Option Json) :=
  match r with
  | .failure => .error ()
  | .success resp => (json_loads resp.bodyText).map some

/-- sign_and_send_es of the index-photos function: on urlopen success the
body is read and logged only; the function returns None (modelled as
none) and never parses or returns the body as JSON. A urlopen failure
propagates. -/
def sign_and_send_es_index (r : UrlopenResult) : Except Unit (Option Json) :=
  match r with
  | .failure => .error ()
  | .success _ => .ok none

/-! ## Specification predicates -/

/-- A string with at least one non-whitespace character; its negation
covers exactly the empty and the whitespace-only strings. -/
def hasNonSpace (s : String) : Prop :=
  ∃ c ∈ s.toList, isPySpace c = false

instance (s : String) : Decidable (hasNonSpace s) := by
  unfold hasNonSpace
  infer_instance

/-- The LabelSet invariant of the spec: no duplicate entries, no empty or
whitespace-only entries, every entry lowercase (fixed by pyLower). -/
def labelSetInvariant (labels : List String) : Prop :=
  labels.Nodup ∧ ∀ l ∈ labels, hasNonSpace l ∧ pyLower l = l

instance (labels : List String) : Decidable (labelSetInvariant labels) := by
  unfold labelSetInvariant
  infer_instance

instance : (es : ESOutcome) → Decidable (esCallFails es)
  | .err => .isTrue trivial
  | .okNoHits => .isFalse (fun h => h)
  | .ok hits => inferInstanceAs (Decidable (none ∈ hits))

/-- A concrete json.loads behaviour used to instantiate the client
theorems: it parses the body "true" and rejects everything else. -/
def demoLoads : String → Except Unit Json :=
  fun s => if s = "true" then .ok (.bool true) else .error ()

/-! ## Supporting lemmas -/

theorem toNat_ofNat_valid {n : Nat} (h : n < 55296) : (Char.ofNat n).toNat = n := by
  have hv : n.isValidChar := Or.inl h
  simp [Char.ofNat, hv, Char.ofNatAux, Char.toNat, UInt32.toNat]

theorem toLower_idem (c : Char) : c.toLower.toLower = c.toLower := by
  unfold Char.toLower
  by_cases h : c.toNat ≥ 65 ∧ c.toNat ≤ 90
  · rw [if_pos h, if_neg]
    rw [toNat_ofNat_valid (by omega : c.toNat + 32 < 55296)]
    omega
  · rw [if_neg h, if_neg h]

theorem isPySpace_eq_false {c : Char} (h : 33 ≤ c.toNat) : isPySpace c = false := by
  simp [isPySpace]
  omega

theorem isPySpace_toLower (c : Char) : isPySpace c.toLower = isPySpace c := by
  unfold Char.toLower
  by_cases h : c.toNat ≥ 65 ∧ c.toNat ≤ 90
  · rw [if_pos h]
    have h2 : (Char.ofNat (c.toNat + 32)).toNat = c.toNat + 32 :=
      toNat_ofNat_valid (by omega)
    rw [isPySpace_eq_false (by rw [h2]; omega), isPySpace_eq_false (by omega)]
  · rw [if_neg h]

theorem toList_mk (l : List Char) : (String.mk l).toList = l := rfl

theorem pyLower_idem (s : String) : pyLower (pyLower s) = pyLower s := by
  simp only [pyLower, toList_mk, List.map_map, Function.comp_def, toLower_idem]

theorem hasNonSpace_pyLower {s : String} (h : hasNonSpace s) :
    hasNonSpace (pyLower s) := by
  obtain ⟨c, hc, hcs⟩ := h
  exact ⟨c.toLower, by simp [pyLower, toList_mk]; exact ⟨c, hc, rfl⟩,
    by rw [isPySpace_toLower]; exact hcs⟩

theorem dropWhile_exists_false {p : Char → Bool} {l : List Char}
    (h : l.dropWhile p ≠ []) : ∃ a ∈ l.dropWhile p, p a = false := by
  induction l with
  | nil => simp at h
  | cons x xs ih =>
    by_cases hx : p x
    · rw [List.dropWhile_cons_of_pos hx] at h ⊢
      exact ih h
    · rw [List.dropWhile_cons_of_neg hx]
      exact ⟨x, List.mem_cons_self x _, by simpa using hx⟩

theorem stripChars_exists_false {l : List Char} (h : stripChars l ≠ []) :
    ∃ a ∈ stripChars l, isPySpace a = false := by
  unfold stripChars at h ⊢
  have h2 : ((l.dropWhile isPySpace).reverse.dropWhile isPySpace) ≠ [] := by
    intro hc
    rw [hc] at h
    exact h rfl
  obtain ⟨a, ha, has⟩ := dropWhile_exists_false h2
  exact ⟨a, List.mem_reverse.mpr ha, has⟩

theorem hasNonSpace_pyStrip {s : String} (h : pyStrip s ≠ "") :
    hasNonSpace (pyStrip s) := by
  have h2 : stripChars s.toList ≠ [] := by
    intro hc
    apply h
    unfold pyStrip
    rw [hc]
  obtain ⟨a, ha, has⟩ := stripChars_exists_false h2
  exact ⟨a, by simpa [pyStrip, toList_mk] using ha, has⟩

theorem mem_dedupFirstAux {a : String} :
    ∀ (l : List String) (seen : List String),
      a ∈ dedupFirstAux seen l ↔ a ∈ l ∧ a ∉ seen := by
  intro l
  induction l with
  | nil => simp [dedupFirstAux]
  | cons x xs ih =>
    intro seen
    unfold dedupFirstAux
    by_cases hx : x ∈ seen
    · rw [if_pos hx, ih]
      constructor
      · exact fun ⟨h1, h2⟩ => ⟨List.mem_cons_of_mem x h1, h2⟩
      · rintro ⟨h1, h2⟩
        rcases List.mem_cons.mp h1 with rfl | h1
        · exact absurd hx h2
        · exact ⟨h1, h2⟩
    · rw [if_neg hx]
      simp only [List.mem_cons, ih]
      constructor
      · rintro (rfl | ⟨h1, h2⟩)
        · exact ⟨Or.inl rfl, hx⟩
        · exact ⟨Or.inr h1, fun hc => h2 (Or.inr hc)⟩
      · rintro ⟨rfl | h1, h2⟩
        · exact Or.inl rfl
        · by_cases hax : a = x
          · exact Or.inl hax
          · exact Or.inr ⟨h1, fun hc => by
              rcases hc with h | h
              · exact hax h
              · exact h2 h⟩

theorem nodup_dedupFirstAux :
    ∀ (l : List String) (seen : List String), (dedupFirstAux seen l).Nodup := by
  intro l
  induction l with
  | nil => intro seen; simp [dedupFirstAux]
  | cons x xs ih =>
    intro seen
    unfold dedupFirstAux
    by_cases hx : x ∈ seen
    · rw [if_pos hx]; exact ih seen
    · rw [if_neg hx]
      refine List.nodup_cons.mpr ⟨?_, ih (x :: seen)⟩
      intro hc
      exact ((mem_dedupFirstAux xs (x :: seen)).mp hc).2 (List.mem_cons_self x seen)

theorem mem_dedupFirst {a : String} {l : List String} :
    a ∈ dedupFirst l ↔ a ∈ l := by
  unfold dedupFirst
  rw [mem_dedupFirstAux]
  simp

theorem nodup_dedupFirst (l : List String) : (dedupFirst l).Nodup :=
  nodup_dedupFirstAux l []

theorem insertSorted_perm (x : String) (l : List String) :
    (insertSorted x l).Perm (x :: l) := by
  induction l with
  | nil => exact List.Perm.refl _
  | cons y ys ih =>
    unfold insertSorted
    by_cases h : strLe x y
    · rw [if_pos h]
    · rw [if_neg h]
      exact (ih.cons y).trans (List.Perm.swap x y ys)

theorem sortStrings_perm (l : List String) : (sortStrings l).Perm l := by
  induction l with
  | nil => exact List.Perm.refl _
  | cons x xs ih =>
    exact (insertSorted_perm x (sortStrings xs)).trans (ih.cons x)

theorem pySortedSet_perm (l : List String) :
    (pySortedSet l).Perm (dedupFirst l) :=
  sortStrings_perm (dedupFirst l)

theorem mem_pySortedSet {a : String} {l : List String} :
    a ∈ pySortedSet l ↔ a ∈ l := by
  rw [(pySortedSet_perm l).mem_iff, mem_dedupFirst]

theorem nodup_pySortedSet (l : List String) : (pySortedSet l).Nodup :=
  ((pySortedSet_perm l).nodup_iff).mpr (nodup_dedupFirst l)

theorem auto_labels_lower (d : DetectorResult) :
    ∀ l ∈ get_labels_from_rekognition d, pyLower l = l := by
  cases d with
  | err => intro l hl; cases hl
  | ok names =>
    intro l hl
    obtain ⟨n, _, rfl⟩ := List.mem_map.mp hl
    exact pyLower_idem n

theorem custom_labels_ok (m : MetadataResult) :
    ∀ l ∈ get_custom_labels m, hasNonSpace l ∧ pyLower l = l := by
  cases m with
  | err => intro l hl; cases hl
  | ok raw =>
    cases raw with
    | none => intro l hl; cases hl
    | some r =>
      intro l hl
      simp only [get_custom_labels] at hl
      by_cases hr : r = ""
      · rw [if_pos hr] at hl; cases hl
      · rw [if_neg hr] at hl
        obtain ⟨tok, htok, rfl⟩ := List.mem_map.mp hl
        have hne : pyStrip tok ≠ "" := by
          have := List.of_mem_filter htok
          simpa using this
        exact ⟨hasNonSpace_pyLower (hasNonSpace_pyStrip hne), pyLower_idem _⟩

theorem buildResults_eq_none {hits : List (Option Hit)} (h : none ∈ hits) :
    buildResults hits = none := by
  induction hits with
  | nil => cases h
  | cons x xs ih =>
    cases x with
    | none => rfl
    | some hh =>
      rcases List.mem_cons.mp h with h1 | h1
      · cases h1
      · unfold buildResults
        rw [ih h1]
        rfl

/-! ## Claim theorems -/

/-- C1, counterexample: a detector result whose single label name is one
space character passes through get_labels_from_rekognition unfiltered, so
the fused labels field of the built document is the whitespace-only list,
violating the LabelSet invariant as claimed for all label inputs. -/
theorem fused_labels_invariant_cex :
    ¬ labelSetInvariant
      (buildDoc ⟨"b1", "x.jpg"⟩ ⟨.ok [" "], .ok none, true, "T"⟩).labels := by
  decide

/-- C1, amended: for every label input in which each (lowercased)
detector-returned label name contains at least one non-whitespace
character, the fused labels field of the built document has no
duplicates, no empty or whitespace-only entries, and only lowercase
entries. Custom metadata tags need no such hypothesis because the code
strips them and drops empty ones. -/
theorem fused_labels_invariant (rec : S3Record) (o : RecordOracle)
    (h : ∀ n ∈ get_labels_from_rekognition o.detector, hasNonSpace n) :
    labelSetInvariant (buildDoc rec o).labels := by
  constructor
  · exact nodup_pySortedSet _
  · intro l hl
    rcases List.mem_append.mp (mem_pySortedSet.mp hl) with hm | hm
    · exact ⟨h l hm, auto_labels_lower o.detector l hm⟩
    · exact custom_labels_ok o.metadata l hm

/-- C1, witness for the amended theorem at a concrete input. -/
theorem fused_labels_invariant_witness :
    (∀ n ∈ get_labels_from_rekognition (.ok ["Dog", "Park"]), hasNonSpace n) ∧
    labelSetInvariant
      (buildDoc ⟨"b1", "a+b.jpg"⟩
        ⟨.ok ["Dog", "Park"], .ok (some "Sunny, dog"), true, "T"⟩).labels :=
  ⟨by decide, fused_labels_invariant _ _ (by decide)⟩

/-- C2, counterexample: when the Lex call fails, the code returns the
tokenizer output without the dedup step, so a query with a repeated
non-stop-word token yields a result with duplicates, not the claimed
deduplicated tokenizer output. -/
theorem lex_fallback_cex :
    extract_labels_from_lex "dog dog" .err
      ≠ dedupFirst (tokenizeFallback (pyLower "dog dog")) := by
  decide

/-- C2, amended: when Lex succeeds but yields zero usable slot values,
the extraction result is the deduplicated tokenizer output (stop words
dropped, order kept, first occurrence wins); when the Lex call itself
fails, the result is the tokenizer output without the dedup step. -/
theorem lex_fallback (q : String) (interps : List Interp)
    (h : usableSlotValues interps = []) :
    extract_labels_from_lex q (.ok interps)
      = dedupFirst (tokenizeFallback (pyLower q)) ∧
    extract_labels_from_lex q .err = tokenizeFallback (pyLower q) := by
  constructor
  · simp [extract_labels_from_lex, h]
  · rfl

/-- C2, witness for the amended theorem at a concrete input. -/
theorem lex_fallback_witness :
    usableSlotValues [⟨[.nullSlot, .noValue]⟩] = [] ∧
    extract_labels_from_lex "show me photos with dog and park"
        (.ok [⟨[.nullSlot, .noValue]⟩]) = ["dog", "park"] ∧
    extract_labels_from_lex "show me photos with dog and park" .err
      = ["dog", "park"] :=
  ⟨rfl,
    ((lex_fallback "show me photos with dog and park"
      [⟨[.nullSlot, .noValue]⟩] (by decide)).1).trans (by decide),
    ((lex_fallback "show me photos with dog and park"
      [⟨[.nullSlot, .noValue]⟩] (by decide)).2).trans (by decide)⟩

/-- C3: whenever a request reaches label extraction (its query text is
present and non-empty) and extraction yields the empty list, the handler
responds 200 with empty results and the CORS header, and the index
service is not called. -/
theorem empty_extraction_short_circuit (e : SearchEvent) (lex : LexResult)
    (es : ESOutcome) (q : String) (hq : getQ e = some q) (hne : q ≠ "")
    (hl : extract_labels_from_lex q lex = []) :
    lambda_handler e lex es =
      { statusCode := 200, body := .results [], cors := true,
        calledLex := true, calledES := false } := by
  unfold lambda_handler
  rw [hq]
  simp [hne, hl]

/-- C3, witness: a query made of stop words only, with the Lex call
failing, extracts no labels and short-circuits. -/
theorem empty_extraction_short_circuit_witness :
    extract_labels_from_lex "show me photos" .err = [] ∧
    lambda_handler ⟨some "show me photos", none⟩ .err .err =
      { statusCode := 200, body := .results [], cors := true,
        calledLex := true, calledES := false } :=
  ⟨by decide,
    empty_extraction_short_circuit _ .err .err "show me photos" rfl
      (by decide) (by decide)⟩

/-- C4: a request with no q field on the event and no q entry in
queryStringParameters gets the fixed 400 response, with neither Lex nor
the index called. -/
theorem missing_q_bad_request (e : SearchEvent) (lex : LexResult)
    (es : ESOutcome) (h1 : e.q = none)
    (h2 : ∀ ps, e.queryStringParameters = some ps → lookupDict ps "q" = none) :
    lambda_handler e lex es = missingQResponse := by
  obtain ⟨q0, qsp⟩ := e
  simp only at h1
  subst h1
  have hq : getQ ⟨none, qsp⟩ = none := by
    unfold getQ
    cases qsp with
    | none => rfl
    | some ps =>
      by_cases hps : ps.isEmpty
      · simp [hps]
      · simp [hps]
        exact h2 ps rfl
  unfold lambda_handler
  rw [hq]

/-- C4, witness at the event with neither field present. -/
theorem missing_q_bad_request_witness :
    lambda_handler ⟨none, none⟩ .err .err = missingQResponse :=
  missing_q_bad_request _ .err .err rfl (fun _ h => nomatch h)

/-- C5: the handler processes a batch compositionally, record by record:
the outcome at every other position is independent of the record (and of
its detector, metadata and index-write outcomes) at the distinguished
position, so a failing record cannot abort or change the processing of
the records around it. -/
theorem batch_isolation (esIndex : String)
    (pre post : List (S3Record × RecordOracle)) (rec : S3Record)
    (o : RecordOracle) :
    handler esIndex (pre ++ (rec, o) :: post)
      = handler esIndex pre
        ++ processRecord esIndex rec o :: handler esIndex post := by
  simp [handler]

/-- C6: whenever the index search call fails (exception from the signed
call: signing, transport, non-2xx or unparseable body; or a hit whose
_source lacks a required field), the handler returns 500 with empty
results and the CORS header instead of propagating the fault. -/
theorem search_failure_500 (e : SearchEvent) (lex : LexResult)
    (es : ESOutcome) (q : String) (hq : getQ e = some q) (hne : q ≠ "")
    (hl : extract_labels_from_lex q lex ≠ []) (hes : esCallFails es) :
    lambda_handler e lex es =
      { statusCode := 500, body := .results [], cors := true,
        calledLex := true, calledES := true } := by
  unfold lambda_handler
  rw [hq]
  have hl2 : (extract_labels_from_lex q lex).isEmpty = false := by
    cases hext : extract_labels_from_lex q lex with
    | nil => exact absurd hext hl
    | cons a as => rfl
  simp only [hne, if_neg, hl2, Bool.false_eq_true, if_false]
  cases es with
  | err => simp
  | okNoHits => exact absurd hes (fun h => h)
  | ok hits =>
    simp [buildResults_eq_none hes]

/-- C6, witness: a one-word query with Lex failing over (so extraction is
non-empty) and a failing index call. -/
theorem search_failure_500_witness :
    extract_labels_from_lex "dog" .err = ["dog"] ∧ esCallFails .err ∧
    lambda_handler ⟨some "dog", none⟩ .err .err =
      { statusCode := 500, body := .results [], cors := true,
        calledLex := true, calledES := true } :=
  ⟨by decide, trivial,
    search_failure_500 _ .err .err "dog" rfl (by decide) (by decide) trivial⟩

/-- C7, counterexample: on an HTTP success response with body "true",
whose JSON parse is the value true, the ingestion pipeline's
sign_and_send_es returns None rather than the parsed value, so the claim
fails for that client. -/
theorem client_returns_parsed_cex :
    sign_and_send_es_search demoLoads (.success ⟨200, "true"⟩)
        = .ok (some (.bool true)) ∧
    sign_and_send_es_index (.success ⟨200, "true"⟩)
        ≠ .ok (some (.bool true)) := by
  constructor
  · rfl
  · intro h
    simp [sign_and_send_es_index] at h

/-- C7, amended: on every HTTP success response, the query pipeline's
client returns the json.loads parse of the body, while the ingestion
pipeline's client reads and logs the body but returns None, never the
parsed value. -/
theorem client_returns_parsed (json_loads : String → Except Unit Json)
    (resp : HttpResp) :
    sign_and_send_es_search json_loads (.success resp)
        = (json_loads resp.bodyText).map some ∧
    sign_and_send_es_index (.success resp) = .ok none :=
  ⟨rfl, rfl⟩

/-- C8: the end-to-end ingestion example: bucket b1, raw event key
a+b.jpg, detector labels Dog and Park, customlabels metadata
"Sunny, dog". The built document has the decoded key, the bucket and the
fused sorted labels, and is PUT at /photos/_doc/a%20b.jpg. -/
theorem end_to_end_ingestion (ts : String) :
    processRecord "photos" ⟨"b1", "a+b.jpg"⟩
        ⟨.ok ["Dog", "Park"], .ok (some "Sunny, dog"), true, ts⟩
      = some ⟨"/photos/_doc/a%20b.jpg",
          ⟨"a b.jpg", "b1", ts, ["dog", "park", "sunny"]⟩⟩ :=
  rfl

/-- C9, counterexample: the built document carries the ingestion-time
timestamp, so ingesting the same record twice with identical label
sources but distinct clock readings leaves index content that differs
from a single ingestion (in createdTimestamp), refuting literal content
identity. -/
theorem ingest_idempotent_cex :
    applyRecord "photos"
        (applyRecord "photos" [] ⟨"b1", "x.jpg"⟩
          ⟨.ok ["Dog"], .ok none, true, "T1"⟩)
        ⟨"b1", "x.jpg"⟩ ⟨.ok ["Dog"], .ok none, true, "T2"⟩
      ≠ applyRecord "photos" [] ⟨"b1", "x.jpg"⟩
          ⟨.ok ["Dog"], .ok none, true, "T1"⟩ := by
  decide

/-- C9, amended: both ingestions of the same record with identical label
sources PUT to the same deterministic path, so the second overwrites the
first: after two ingestions the index holds exactly the one document it
holds after one ingestion, except that createdTimestamp is the second
ingestion's clock reading. -/
theorem ingest_idempotent (esIndex : String) (rec : S3Record)
    (o1 o2 : RecordOracle) (hdet : o2.detector = o1.detector)
    (hmeta : o2.metadata = o1.metadata) (h1 : o1.esPutOk = true)
    (h2 : o2.esPutOk = true) :
    applyRecord esIndex [] rec o1 = [(docPath esIndex rec, buildDoc rec o1)] ∧
    applyRecord esIndex (applyRecord esIndex [] rec o1) rec o2
      = [(docPath esIndex rec,
          { buildDoc rec o1 with createdTimestamp := o2.ts })] := by
  have hbd : buildDoc rec o2 = { buildDoc rec o1 with createdTimestamp := o2.ts } := by
    simp [buildDoc, hdet, hmeta]
  constructor
  · simp [applyRecord, processRecord, h1, esUpsert]
  · simp [applyRecord, processRecord, h1, h2, esUpsert, hbd]

/-- C9, witness for the amended theorem at a concrete input. -/
theorem ingest_idempotent_witness :
    applyRecord "photos"
        (applyRecord "photos" [] ⟨"b1", "x.jpg"⟩
          ⟨.ok ["Dog"], .ok none, true, "T1"⟩)
        ⟨"b1", "x.jpg"⟩ ⟨.ok ["Dog"], .ok none, true, "T2"⟩
      = [("/photos/_doc/x.jpg",
          { objectKey := "x.jpg", bucket := "b1", createdTimestamp := "T2",
            labels := ["dog"] })] :=
  ((ingest_idempotent "photos" ⟨"b1", "x.jpg"⟩
      ⟨.ok ["Dog"], .ok none, true, "T1"⟩ ⟨.ok ["Dog"], .ok none, true, "T2"⟩
      rfl rfl rfl rfl).2).trans (by decide)

/-- C10: a request whose q value is present but equal to the empty
string resolves to an empty query text and is treated exactly like a
missing one: the fixed 400 response, no Lex call, no index call. -/
theorem empty_q_bad_request (e : SearchEvent) (lex : LexResult)
    (es : ESOutcome) (h : getQ e = some "") :
    lambda_handler e lex es = missingQResponse := by
  unfold lambda_handler
  rw [h]
  simp

/-- C10, witness at the event carrying q = "". -/
theorem empty_q_bad_request_witness :
    getQ ⟨some "", none⟩ = some "" ∧
    lambda_handler ⟨some "", none⟩ .err .err = missingQResponse :=
  ⟨rfl, empty_q_bad_request _ .err .err rfl⟩

end PhotoAlbum
